import Mathlib

/-!
# chain-bench: the SCM client aggregation (`internal/scm-clients/clients/clients.go`)

A shallow embedding of `getRepoInfo`, `getClientAdapter` and `FetchClientData`.

* Go strings are byte sequences; they are modelled as lists whose elements each
  stand for one byte.  For the ASCII texts used below, `"...".toList` is exactly
  that byte sequence.
* A Go panic (index or slice out of range, nil dereference) is an explicit
  outcome of the model, next to a normal return.
* What lives outside the file (`net/url`, the platform adapters, the `models`
  and `utils` packages) is taken as a parameter: `url.Parse` is a function
  handed to `getRepoInfo`, the adapters are records of the results their
  methods give.
* Every call made on an adapter is recorded, in order, in the trace of a run.
-/

namespace ChainBench

/-- A Go string: a sequence of bytes, one list element per byte. -/
abbrev GoString := List Char

/-- A Go `error` value, identified by its message. -/
structure GoError where
  msg : GoString
deriving DecidableEq, Repr

/-- How a Go function call ends: it returns, or it panics. -/
inductive Outcome (α : Type) where
  | ret (a : α)
  | panic (reason : GoString)
deriving DecidableEq, Repr

/-! ## The `strings` package and slicing -/

namespace strings

/-- Size in bytes of the first UTF-8 sequence of `s`, as `utf8.DecodeRuneInString`
reports it: an invalid or truncated sequence has size 1, the empty string 0. -/
def runeSize (s : GoString) : Nat :=
  match s.map Char.toNat with
  | [] => 0
  | b0 :: rest =>
    if b0 < 0xC2 then 1
    else if b0 < 0xE0 then
      match rest with
      | b1 :: _ => if 0x80 ≤ b1 ∧ b1 ≤ 0xBF then 2 else 1
      | _ => 1
    else if b0 < 0xF0 then
      match rest with
      | b1 :: b2 :: _ =>
        if (if b0 = 0xE0 then 0xA0 else 0x80) ≤ b1 ∧ b1 ≤ (if b0 = 0xED then 0x9F else 0xBF)
            ∧ 0x80 ≤ b2 ∧ b2 ≤ 0xBF then 3 else 1
      | _ => 1
    else if b0 < 0xF5 then
      match rest with
      | b1 :: b2 :: b3 :: _ =>
        if (if b0 = 0xF0 then 0x90 else 0x80) ≤ b1 ∧ b1 ≤ (if b0 = 0xF4 then 0x8F else 0xBF)
            ∧ 0x80 ≤ b2 ∧ b2 ≤ 0xBF ∧ 0x80 ≤ b3 ∧ b3 ≤ 0xBF then 4 else 1
      | _ => 1
    else 1

/-- The loop of `strings.explode`: one piece per UTF-8 sequence, invalid bytes one by one. -/
def explodeLoop : Nat → GoString → List GoString
  | 0, _ => []
  | fuel + 1, s =>
    if s = [] then [] else s.take (runeSize s) :: explodeLoop fuel (s.drop (runeSize s))

/-- The helper `strings.explode(s, -1)`, used by `Split` for an empty separator. -/
def explode (s : GoString) : List GoString :=
  explodeLoop s.length s

/-- The scan of `strings.Split` for a non-empty separator: `acc` is the piece being
collected, `skip` counts the bytes of a separator just matched that are still to be
passed over. -/
def splitLoop (sep : GoString) : Nat → GoString → GoString → List GoString
  | _, acc, [] => [acc]
  | skip + 1, acc, _ :: cs => splitLoop sep skip acc cs
  | 0, acc, c :: cs =>
    if sep.isPrefixOf (c :: cs) then acc :: splitLoop sep (sep.length - 1) [] cs
    else splitLoop sep 0 (acc ++ [c]) cs

/-- The function `strings.Split(s, sep)`: the pieces of `s` between the non-overlapping
occurrences of `sep`, found from the left; for an empty `sep`, one piece per UTF-8
sequence (and no piece at all when `s` is empty too). -/
def Split (s sep : GoString) : List GoString :=
  if sep = [] then explode s else splitLoop sep 0 [] s

end strings

/-- The slice expression `s[lo:hi]` on a string: `none` is the run-time panic
"slice bounds out of range", raised unless `0 ≤ lo ≤ hi ≤ len(s)`. -/
def sliceStr (s : GoString) (lo hi : Int) : Option GoString :=
  if 0 ≤ lo ∧ lo ≤ hi ∧ hi ≤ (s.length : Int) then
    some ((s.drop lo.toNat).take (hi - lo).toNat)
  else none

/-! ## `getRepoInfo` -/

/-- What `getRepoInfo` reads of the `*url.URL` that `url.Parse` returns: the fields
`Scheme`, `Host`, `Path` and the result of the method `EscapedPath()`. -/
structure URL where
  Scheme : GoString
  Host : GoString
  Path : GoString
  EscapedPath : GoString
deriving DecidableEq, Repr

/-- The four results of `getRepoInfo`: host, organization, repository, error. -/
structure RepoInfo where
  host : GoString
  org : GoString
  repo : GoString
  err : Option GoError
deriving DecidableEq, Repr

/-- The function `getRepoInfo` (lines 91-110).  `Parse` is `url.Parse`: it gives an
error or a URL.  The logger call of line 94 has no effect on the results. -/
def getRepoInfo (Parse : GoString → Except GoError URL) (repoFullUrl : GoString) :
    Outcome RepoInfo :=
  match Parse repoFullUrl with
  | .error err => .ret ⟨[], [], [], some err⟩
  | .ok u =>
    if u.Scheme = [] then
      .ret ⟨[], [], [], some ⟨"error in parsing the host".toList⟩⟩
    else
      let path := strings.Split u.EscapedPath "/".toList
      if path.length < 3 then
        .ret ⟨[], [], [],
          some ⟨"missing org/repo in the repository url: ".toList ++ repoFullUrl⟩⟩
      else
        match path.get? (path.length - 1) with
        | none => .panic "index out of range".toList
        | some repo =>
          match strings.Split u.Path repo with
          | [] => .panic "index out of range".toList
          | ns :: _ =>
            match sliceStr ns 1 ((ns.length : Int) - 1) with
            | none => .panic "slice bounds out of range".toList
            | some trimedNamespace => .ret ⟨u.Host, trimedNamespace, repo, none⟩

/-! ## The models and the adapter interface -/

/-- The type `models.User`, with the fields the aggregation can tell apart; `Type` is
a `*string` in the source and is written `Type_` here. -/
structure User where
  Login : Option GoString
  Type_ : Option GoString
deriving DecidableEq, Repr

/-- The type `models.Organization`: its login and its member list. -/
structure Organization where
  Login : Option GoString
  Members : List User
deriving DecidableEq, Repr

/-- The type `models.Repository`: name, default branch (`*string`) and owner (`*User`). -/
structure Repository where
  Name : Option GoString
  DefaultBranch : Option GoString
  Owner : Option User
deriving DecidableEq, Repr

/-- The type `models.Protection`; the aggregation only passes it on. -/
structure Protection where
  id : Nat
deriving DecidableEq, Repr

/-- The type `pipelineModels.Pipeline`; the aggregation only passes it on. -/
structure Pipeline where
  id : Nat
deriving DecidableEq, Repr

/-- The type `models.PackageRegistry`; the aggregation only passes it on. -/
structure PackageRegistry where
  id : Nat
deriving DecidableEq, Repr

/-- The type `checkmodels.AssetsData`, the snapshot; a nil pointer is `none`, a nil
slice is `[]`. -/
structure AssetsData where
  AuthorizedUser : Option User
  Organization : Option Organization
  Repository : Option Repository
  BranchProtections : Option Protection
  Pipelines : List Pipeline
  Registry : Option PackageRegistry
deriving DecidableEq, Repr

/-- The interface `adapter.ClientAdapter` as `FetchClientData` uses it: for each method
the pair (value, error) it returns on the given arguments during one run. -/
structure ClientAdapter where
  GetAuthorizedUser : Option User × Option GoError
  GetRepository : GoString → GoString → GoString → Option Repository × Option GoError
  GetBranchProtection : GoString → Repository → GoString → Option Protection × Option GoError
  GetPipelines : GoString → GoString → GoString → List Pipeline × Option GoError
  GetOrganization : GoString → Option Organization × Option GoError
  GetRegistry : Option Organization → Option PackageRegistry × Option GoError
  ListOrganizationMembers : GoString → List User × Option GoError
  ListSupportedChecksIDs : List GoString × Option GoError

/-- Modelled from the spec: the adapter contract of §4.3 gives every method the result
`T | fails(FetchError)`, so a call that fails hands back an error and no value. -/
def Fails {α : Type} (r : Option α × Option GoError) : Prop :=
  r.2 ≠ none ∧ r.1 = none

/-- One call made on a platform adapter, with its arguments. -/
inductive Call where
  | Init (platform accessToken host : GoString)
  | GetAuthorizedUser
  | GetRepository (owner repo branch : GoString)
  | GetBranchProtection (owner : GoString) (repo : Repository) (branch : GoString)
  | GetPipelines (owner repo branch : GoString)
  | GetOrganization (owner : GoString)
  | GetRegistry (organization : Option Organization)
  | ListOrganizationMembers (organization : GoString)
  | ListSupportedChecksIDs
deriving DecidableEq, Repr

/-- The constant `GithubEndpoint`. -/
def GithubEndpoint : GoString := "github.com".toList
/-- The constant `GitlabEndpoint`. -/
def GitlabEndpoint : GoString := "gitlab.com".toList
/-- The constant `GithubPlatform`. -/
def GithubPlatform : GoString := "github".toList
/-- The constant `GitlabPlatform`. -/
def GitlabPlatform : GoString := "gitlab".toList

/-- The world around one run: `url.Parse`, what `Init` returns on the two package-level
adapters `github.Adapter` and `gitlab.Adapter`, how these adapters answer afterwards,
and how a default-constructed `github.ClientAdapterImpl` answers. -/
structure Env where
  Parse : GoString → Except GoError URL
  githubInit : GoString → GoString → Option GoError
  gitlabInit : GoString → GoString → Option GoError
  githubAdapter : ClientAdapter
  gitlabAdapter : ClientAdapter
  githubClientAdapterImpl : ClientAdapter

/-! ## `getClientAdapter` -/

/-- The locals `err` and `adapter` of `getClientAdapter` after its `switch`, with the
`Init` call the switch made. -/
structure SwitchState where
  err : Option GoError
  adapter : Option ClientAdapter
  calls : List Call

/-- The results of `getClientAdapter`: the adapter (`none` is the nil interface), the
error, and the `Init` call made on the way. -/
structure AdapterResult where
  adapter : Option ClientAdapter
  err : Option GoError
  calls : List Call

/-- The function `getClientAdapter` (lines 112-133). -/
def getClientAdapter (env : Env) (scmPlatform accessToken host : GoString) : AdapterResult :=
  let sw : SwitchState :=
    if scmPlatform = GithubPlatform then
      ⟨env.githubInit accessToken host, some env.githubAdapter,
        [Call.Init GithubPlatform accessToken host]⟩
    else if scmPlatform = GitlabPlatform then
      ⟨env.gitlabInit accessToken host, some env.gitlabAdapter,
        [Call.Init GitlabPlatform accessToken host]⟩
    else ⟨none, none, []⟩
  match sw.err with
  | some _ => ⟨some env.githubClientAdapterImpl, none, sw.calls⟩
  | none => ⟨sw.adapter, sw.err, sw.calls⟩

/-! ## `FetchClientData` -/

namespace utils

/-- Modelled from the spec: `utils.GetValue` lies outside the file; it dereferences a
pointer, giving the empty string for nil. -/
def GetValue (p : Option GoString) : GoString :=
  match p with
  | some v => v
  | none => []

/-- Modelled from the spec: `utils.GetBranchName` lies outside the file; step 6 of §4.4
makes the effective branch the explicit branch argument when it is non-empty, else the
default branch. -/
def GetBranchName (defaultBranch branch : GoString) : GoString :=
  if branch ≠ [] then branch else defaultBranch

end utils

/-- The three results of `FetchClientData`: snapshot, check IDs, error. -/
structure FetchResult where
  data : Option AssetsData
  checksIds : List GoString
  err : Option GoError
deriving DecidableEq, Repr

/-- One run of `FetchClientData`: the adapter calls it made, in order, and how it ended. -/
structure Run where
  calls : List Call
  outcome : Outcome FetchResult
deriving DecidableEq, Repr

/-- The panic of dereferencing a nil pointer or calling a method on a nil interface. -/
def nilDereference : GoString := "invalid memory address or nil pointer dereference".toList

/-- Lines 35-40 of `FetchClientData`: the `switch host` that overrides `scmPlatform`. -/
def selectPlatform (host scmPlatform : GoString) : GoString :=
  if host = GithubEndpoint then GithubPlatform
  else if host = GitlabEndpoint then GitlabPlatform
  else scmPlatform

/-- Lines 46-88 of `FetchClientData`: the fetch sequence on a non-nil adapter. -/
def fetchWith (adapter : ClientAdapter) (orgName repoName branch : GoString) : Run :=
  let authorizedUser := adapter.GetAuthorizedUser.1
  let repo := (adapter.GetRepository orgName repoName branch).1
  let c0 := [Call.GetAuthorizedUser, Call.GetRepository orgName repoName branch]
  let finish (calls : List Call) (protection : Option Protection) (pipelines : List Pipeline)
      (org : Option Organization) (registry : Option PackageRegistry) : Run :=
    ⟨calls ++ [Call.ListSupportedChecksIDs],
      .ret ⟨some ⟨authorizedUser, org, repo, protection, pipelines, registry⟩,
        adapter.ListSupportedChecksIDs.1, adapter.ListSupportedChecksIDs.2⟩⟩
  match repo with
  | none => finish c0 none [] none none
  | some r =>
    let branchName := utils.GetBranchName (utils.GetValue r.DefaultBranch) branch
    let protection := (adapter.GetBranchProtection orgName r branchName).1
    let pipelines := (adapter.GetPipelines orgName repoName branchName).1
    let c1 := c0 ++ [Call.GetBranchProtection orgName r branchName,
      Call.GetPipelines orgName repoName branchName]
    match r.Owner with
    | none => ⟨c1, .panic nilDereference⟩
    | some owner =>
      match owner.Type_ with
      | none => ⟨c1, .panic nilDereference⟩
      | some ownerType =>
        if ownerType = "Organization".toList then
          let org := (adapter.GetOrganization orgName).1
          let registry := (adapter.GetRegistry org).1
          let members := adapter.ListOrganizationMembers orgName
          let c2 := c1 ++ [Call.GetOrganization orgName, Call.GetRegistry org,
            Call.ListOrganizationMembers orgName]
          match members.2 with
          | none =>
            match org with
            | none => ⟨c2, .panic nilDereference⟩
            | some o => finish c2 protection pipelines (some { o with Members := members.1 }) registry
          | some _ => finish c2 protection pipelines org registry
        else finish c1 protection pipelines none none

/-- Lines 43-88 of `FetchClientData`: what follows the call of `getClientAdapter`, whose
results are `r`. -/
def fetchFrom (r : AdapterResult) (orgName repoName branch : GoString) : Run :=
  match r.err with
  | some err => ⟨r.calls, .ret ⟨none, [], some err⟩⟩
  | none =>
    match r.adapter with
    | none => ⟨r.calls, .panic nilDereference⟩
    | some adapter =>
      ⟨r.calls ++ (fetchWith adapter orgName repoName branch).calls,
        (fetchWith adapter orgName repoName branch).outcome⟩

/-- The function `FetchClientData` (lines 29-89). -/
def FetchClientData (env : Env) (accessToken repoUrl scmPlatform branch : GoString) : Run :=
  match getRepoInfo env.Parse repoUrl with
  | .panic reason => ⟨[], .panic reason⟩
  | .ret info =>
    match info.err with
    | some err => ⟨[], .ret ⟨none, [], some err⟩⟩
    | none =>
      fetchFrom (getClientAdapter env (selectPlatform info.host scmPlatform) accessToken info.host)
        info.org info.repo branch

/-! ## Concrete inputs used by the examples -/

/-- The values `url.Parse` returns on the URLs used as examples below: scheme,
host, path and escaped path of each.  Any other input stands for a text that does
not parse, such as `:foo`, and gets the error of that one. -/
def exampleParse (s : GoString) : Except GoError URL :=
  if s = "https://github.com/org/repo".toList then
    .ok ⟨"https".toList, "github.com".toList, "/org/repo".toList, "/org/repo".toList⟩
  else if s = "https://github.com/ab/b".toList then
    .ok ⟨"https".toList, "github.com".toList, "/ab/b".toList, "/ab/b".toList⟩
  else if s = "https://gitlab.com/project/sub/project".toList then
    .ok ⟨"https".toList, "gitlab.com".toList, "/project/sub/project".toList,
      "/project/sub/project".toList⟩
  else if s = "https://gitlab.com/group/subgroup/project".toList then
    .ok ⟨"https".toList, "gitlab.com".toList, "/group/subgroup/project".toList,
      "/group/subgroup/project".toList⟩
  else if s = "https://github.com/org/my%20repo".toList then
    .ok ⟨"https".toList, "github.com".toList, "/org/my repo".toList, "/org/my%20repo".toList⟩
  else if s = "https://github.com/org/repo/".toList then
    .ok ⟨"https".toList, "github.com".toList, "/org/repo/".toList, "/org/repo/".toList⟩
  else if s = "https://github.com/a/b/a".toList then
    .ok ⟨"https".toList, "github.com".toList, "/a/b/a".toList, "/a/b/a".toList⟩
  else if s = "https://github.com/org".toList then
    .ok ⟨"https".toList, "github.com".toList, "/org".toList, "/org".toList⟩
  else if s = "https://github.com".toList then
    .ok ⟨"https".toList, "github.com".toList, [], []⟩
  else if s = "https://git.example.com/org/repo".toList then
    .ok ⟨"https".toList, "git.example.com".toList, "/org/repo".toList, "/org/repo".toList⟩
  else if s = "github.com/org/repo".toList then
    .ok ⟨[], [], "github.com/org/repo".toList, "github.com/org/repo".toList⟩
  else .error ⟨"parse \":foo\": missing protocol scheme".toList⟩

/-- An organization as `GetOrganization` may return it, without members. -/
def sampleOrg : Organization := ⟨some "org".toList, []⟩

/-- A repository owned by an organization, default branch `main`. -/
def sampleRepo : Repository :=
  ⟨some "repo".toList, some "main".toList, some ⟨some "org".toList, some "Organization".toList⟩⟩

/-- An adapter on which every call succeeds, for a repository owned by an organization. -/
def sampleAdapter : ClientAdapter where
  GetAuthorizedUser := (some ⟨some "me".toList, some "User".toList⟩, none)
  GetRepository := fun _ _ _ => (some sampleRepo, none)
  GetBranchProtection := fun _ _ _ => (some ⟨1⟩, none)
  GetPipelines := fun _ _ _ => ([⟨2⟩], none)
  GetOrganization := fun _ => (some sampleOrg, none)
  GetRegistry := fun _ => (some ⟨3⟩, none)
  ListOrganizationMembers := fun _ => ([⟨some "member".toList, some "User".toList⟩], none)
  ListSupportedChecksIDs := (["1.1.3".toList], none)

/-- An adapter on which every call fails: no value, an error. -/
def failingAdapter : ClientAdapter where
  GetAuthorizedUser := (none, some ⟨"no client".toList⟩)
  GetRepository := fun _ _ _ => (none, some ⟨"no client".toList⟩)
  GetBranchProtection := fun _ _ _ => (none, some ⟨"no client".toList⟩)
  GetPipelines := fun _ _ _ => ([], some ⟨"no client".toList⟩)
  GetOrganization := fun _ => (none, some ⟨"no client".toList⟩)
  GetRegistry := fun _ => (none, some ⟨"no client".toList⟩)
  ListOrganizationMembers := fun _ => ([], some ⟨"no client".toList⟩)
  ListSupportedChecksIDs := ([], some ⟨"no client".toList⟩)

/-- A world in which both `Init` calls succeed and both platforms answer as `a`. -/
def sampleEnv (a : ClientAdapter) : Env where
  Parse := exampleParse
  githubInit := fun _ _ => none
  gitlabInit := fun _ _ => none
  githubAdapter := a
  gitlabAdapter := a
  githubClientAdapterImpl := failingAdapter

/-- A world in which both `Init` calls fail. -/
def initFailsEnv : Env where
  Parse := exampleParse
  githubInit := fun _ _ => some ⟨"init failed".toList⟩
  gitlabInit := fun _ _ => some ⟨"init failed".toList⟩
  githubAdapter := sampleAdapter
  gitlabAdapter := sampleAdapter
  githubClientAdapterImpl := failingAdapter

/-- The organization fetch fails, the member list is served all the same. -/
def orgFailsAdapter : ClientAdapter :=
  { sampleAdapter with GetOrganization := fun _ => (none, some ⟨"403 Forbidden".toList⟩) }

/-- The organization fetch and the member list fetch both fail. -/
def orgAndMembersFailAdapter : ClientAdapter :=
  { sampleAdapter with
    GetOrganization := fun _ => (none, some ⟨"403 Forbidden".toList⟩)
    ListOrganizationMembers := fun _ => ([], some ⟨"403 Forbidden".toList⟩) }

/-- The repository metadata fetch fails. -/
def repoFailsAdapter : ClientAdapter :=
  { sampleAdapter with GetRepository := fun _ _ _ => (none, some ⟨"404 Not Found".toList⟩) }

/-- The repository metadata fetch yields nothing and reports no error either. -/
def repoMissingAdapter : ClientAdapter :=
  { sampleAdapter with GetRepository := fun _ _ _ => (none, none) }

/-- The repository metadata fetch hands back a repository together with an error. -/
def repoWithErrorAdapter : ClientAdapter :=
  { sampleAdapter with
    GetRepository := fun _ _ _ => (some sampleRepo, some ⟨"secondary rate limit".toList⟩) }

/-- Every fetch succeeds except the enumeration of the check IDs. -/
def checksFailAdapter : ClientAdapter :=
  { sampleAdapter with ListSupportedChecksIDs := ([], some ⟨"checks unavailable".toList⟩) }

/-- A repository that reports no owner. -/
def ownerlessRepo : Repository := ⟨some "repo".toList, some "main".toList, none⟩

/-- A repository owned by a user account. -/
def userRepo : Repository :=
  ⟨some "repo".toList, some "main".toList, some ⟨some "org".toList, some "User".toList⟩⟩

/-- Every call succeeds, for a repository owned by a user account. -/
def userOwnedAdapter : ClientAdapter :=
  { sampleAdapter with GetRepository := fun _ _ _ => (some userRepo, none) }

/-- An organization that `GetOrganization` returns with a member already in it. -/
def orgWithMember : Organization :=
  ⟨some "org".toList, [⟨some "founder".toList, some "User".toList⟩]⟩

/-- The organization comes with a member in it and the member list fetch fails. -/
def memberInOrgAdapter : ClientAdapter :=
  { sampleAdapter with
    GetOrganization := fun _ => (some orgWithMember, none)
    ListOrganizationMembers := fun _ => ([], some ⟨"403 Forbidden".toList⟩) }

/-- The organization comes without members and the member list fetch fails. -/
def membersFailAdapter : ClientAdapter :=
  { sampleAdapter with
    ListOrganizationMembers := fun _ => ([], some ⟨"403 Forbidden".toList⟩) }

/-- A repository whose owner reports no type. -/
def untypedOwnerRepo : Repository :=
  ⟨some "repo".toList, some "main".toList, some ⟨some "org".toList, none⟩⟩

/-- Every call succeeds, for a repository that reports no owner. -/
def noOwnerAdapter : ClientAdapter :=
  { sampleAdapter with GetRepository := fun _ _ _ => (some ownerlessRepo, none) }

/-- Every call succeeds, for a repository whose owner reports no type. -/
def untypedOwnerAdapter : ClientAdapter :=
  { sampleAdapter with GetRepository := fun _ _ _ => (some untypedOwnerRepo, none) }

/-! ## The order of the fetch steps -/

/-- The eight fetch methods of the adapter interface, without their arguments. -/
inductive Method where
  | GetAuthorizedUser
  | GetRepository
  | GetBranchProtection
  | GetPipelines
  | GetOrganization
  | GetRegistry
  | ListOrganizationMembers
  | ListSupportedChecksIDs
deriving DecidableEq, Repr

/-- The fetch method a call invokes; `Init` belongs to the construction of the adapter
and is no fetch. -/
def Call.method : Call → Option Method
  | .Init _ _ _ => none
  | .GetAuthorizedUser => some .GetAuthorizedUser
  | .GetRepository _ _ _ => some .GetRepository
  | .GetBranchProtection _ _ _ => some .GetBranchProtection
  | .GetPipelines _ _ _ => some .GetPipelines
  | .GetOrganization _ => some .GetOrganization
  | .GetRegistry _ => some .GetRegistry
  | .ListOrganizationMembers _ => some .ListOrganizationMembers
  | .ListSupportedChecksIDs => some .ListSupportedChecksIDs

/-- The fixed order of the fetch steps, as the pipeline of §4.4 lists them. -/
def fetchOrder : List Method :=
  [.GetAuthorizedUser, .GetRepository, .GetBranchProtection, .GetPipelines,
    .GetOrganization, .GetRegistry, .ListOrganizationMembers, .ListSupportedChecksIDs]

/-! ## General facts about the embedding -/

/-- Once the URL resolves and `getClientAdapter` hands back an adapter with a nil error,
`FetchClientData` is the fetch sequence of lines 46-88 on that adapter. -/
theorem FetchClientData_eq_fetchWith (env : Env)
    (accessToken repoUrl scmPlatform branch host orgName repoName : GoString)
    (adapter : ClientAdapter) (calls : List Call)
    (hurl : getRepoInfo env.Parse repoUrl = .ret ⟨host, orgName, repoName, none⟩)
    (hadapter : getClientAdapter env (selectPlatform host scmPlatform) accessToken host
      = ⟨some adapter, none, calls⟩) :
    FetchClientData env accessToken repoUrl scmPlatform branch
      = ⟨calls ++ (fetchWith adapter orgName repoName branch).calls,
          (fetchWith adapter orgName repoName branch).outcome⟩ := by
  simp [FetchClientData, fetchFrom, hurl, hadapter]

/-- A failing `Init` of the GitHub adapter: `getClientAdapter` hands back the
default-constructed GitHub adapter and a nil error. -/
theorem getClientAdapter_github_init_fails (env : Env) (accessToken host : GoString)
    (e : GoError) (hinit : env.githubInit accessToken host = some e) :
    getClientAdapter env GithubPlatform accessToken host
      = ⟨some env.githubClientAdapterImpl, none,
          [Call.Init GithubPlatform accessToken host]⟩ := by
  simp [getClientAdapter, hinit]

/-- A failing `Init` of the GitLab adapter: `getClientAdapter` hands back the
default-constructed GitHub adapter and a nil error. -/
theorem getClientAdapter_gitlab_init_fails (env : Env) (accessToken host : GoString)
    (e : GoError) (hinit : env.gitlabInit accessToken host = some e) :
    getClientAdapter env GitlabPlatform accessToken host
      = ⟨some env.githubClientAdapterImpl, none,
          [Call.Init GitlabPlatform accessToken host]⟩ := by
  have hne : GitlabPlatform ≠ GithubPlatform := by decide
  simp [getClientAdapter, hinit, hne]

/-- A platform other than `github` and `gitlab`: `getClientAdapter` hands back the nil
adapter and a nil error, without any `Init` call. -/
theorem getClientAdapter_other_platform (env : Env) (scmPlatform accessToken host : GoString)
    (hgithub : scmPlatform ≠ GithubPlatform) (hgitlab : scmPlatform ≠ GitlabPlatform) :
    getClientAdapter env scmPlatform accessToken host = ⟨none, none, []⟩ := by
  simp [getClientAdapter, hgithub, hgitlab]

/-- Without a repository the fetch sequence goes straight on to `ListSupportedChecksIDs`. -/
theorem fetchWith_no_repository (adapter : ClientAdapter) (orgName repoName branch : GoString)
    (hrepo : (adapter.GetRepository orgName repoName branch).1 = none) :
    fetchWith adapter orgName repoName branch
      = ⟨[Call.GetAuthorizedUser, Call.GetRepository orgName repoName branch,
            Call.ListSupportedChecksIDs],
          .ret ⟨some ⟨adapter.GetAuthorizedUser.1, none, none, none, [], none⟩,
            adapter.ListSupportedChecksIDs.1, adapter.ListSupportedChecksIDs.2⟩⟩ := by
  simp [fetchWith, hrepo]

/-- A repository whose owner is not an organization: the organization block is skipped. -/
theorem fetchWith_owner_not_organization (adapter : ClientAdapter)
    (orgName repoName branch ownerType : GoString) (r : Repository) (owner : User)
    (hrepo : (adapter.GetRepository orgName repoName branch).1 = some r)
    (howner : r.Owner = some owner) (htype : owner.Type_ = some ownerType)
    (hkind : ownerType ≠ "Organization".toList) :
    fetchWith adapter orgName repoName branch
      = ⟨[Call.GetAuthorizedUser, Call.GetRepository orgName repoName branch,
            Call.GetBranchProtection orgName r
              (utils.GetBranchName (utils.GetValue r.DefaultBranch) branch),
            Call.GetPipelines orgName repoName
              (utils.GetBranchName (utils.GetValue r.DefaultBranch) branch),
            Call.ListSupportedChecksIDs],
          .ret ⟨some ⟨adapter.GetAuthorizedUser.1, none, some r,
              (adapter.GetBranchProtection orgName r
                (utils.GetBranchName (utils.GetValue r.DefaultBranch) branch)).1,
              (adapter.GetPipelines orgName repoName
                (utils.GetBranchName (utils.GetValue r.DefaultBranch) branch)).1, none⟩,
            adapter.ListSupportedChecksIDs.1, adapter.ListSupportedChecksIDs.2⟩⟩ := by
  simp [fetchWith, hrepo, howner, htype]
  intro h
  exact absurd h hkind

/-- An organization's repository, the organization obtained, the member list failing:
the organization goes into the snapshot as `GetOrganization` returned it. -/
theorem fetchWith_members_fail (adapter : ClientAdapter)
    (orgName repoName branch : GoString) (r : Repository) (owner : User) (o : Organization)
    (e : GoError)
    (hrepo : (adapter.GetRepository orgName repoName branch).1 = some r)
    (howner : r.Owner = some owner) (htype : owner.Type_ = some "Organization".toList)
    (horg : (adapter.GetOrganization orgName).1 = some o)
    (hmembers : (adapter.ListOrganizationMembers orgName).2 = some e) :
    fetchWith adapter orgName repoName branch
      = ⟨[Call.GetAuthorizedUser, Call.GetRepository orgName repoName branch,
            Call.GetBranchProtection orgName r
              (utils.GetBranchName (utils.GetValue r.DefaultBranch) branch),
            Call.GetPipelines orgName repoName
              (utils.GetBranchName (utils.GetValue r.DefaultBranch) branch),
            Call.GetOrganization orgName, Call.GetRegistry (some o),
            Call.ListOrganizationMembers orgName, Call.ListSupportedChecksIDs],
          .ret ⟨some ⟨adapter.GetAuthorizedUser.1, some o, some r,
              (adapter.GetBranchProtection orgName r
                (utils.GetBranchName (utils.GetValue r.DefaultBranch) branch)).1,
              (adapter.GetPipelines orgName repoName
                (utils.GetBranchName (utils.GetValue r.DefaultBranch) branch)).1,
              (adapter.GetRegistry (some o)).1⟩,
            adapter.ListSupportedChecksIDs.1, adapter.ListSupportedChecksIDs.2⟩⟩ := by
  simp [fetchWith, hrepo, howner, htype, horg, hmembers]

/-- Every run of the fetch sequence that returns has called `ListSupportedChecksIDs`
last, returns a snapshot, and returns the check IDs and the error of that call. -/
theorem fetchWith_returns (adapter : ClientAdapter) (orgName repoName branch : GoString)
    (res : FetchResult)
    (hret : (fetchWith adapter orgName repoName branch).outcome = .ret res) :
    res.data.isSome = true
    ∧ res.checksIds = adapter.ListSupportedChecksIDs.1
    ∧ res.err = adapter.ListSupportedChecksIDs.2
    ∧ (fetchWith adapter orgName repoName branch).calls.getLast?
        = some Call.ListSupportedChecksIDs := by
  unfold fetchWith at hret ⊢
  simp only at hret ⊢
  split at hret
  · simp at hret; subst hret; simp
  · split at hret
    · simp at hret
    · split at hret
      · simp at hret
      · split at hret
        · split at hret
          · split at hret
            · simp at hret
            · simp at hret; subst hret; simp_all
          · simp at hret; subst hret; simp_all
        · simp at hret; subst hret; simp_all

/-! ## The claims -/

/-- C1: the organization `getRepoInfo` returns is not always the path between the leading
slash and the repository name.  The namespace is cut at the first occurrence of the
repository name in `u.Path`, and the name is taken from the escaped path: for
`https://github.com/ab/b` the organization comes out empty instead of `ab`, for
`https://gitlab.com/project/sub/project` the slice of line 107 panics, and for
`https://github.com/org/my%20repo` the organization comes out as `org/my rep`. -/
theorem getRepoInfo_org_cut_at_first_occurrence :
    getRepoInfo exampleParse "https://github.com/ab/b".toList
        = .ret ⟨"github.com".toList, [], "b".toList, none⟩
    ∧ getRepoInfo exampleParse "https://gitlab.com/project/sub/project".toList
        = .panic "slice bounds out of range".toList
    ∧ getRepoInfo exampleParse "https://github.com/org/my%20repo".toList
        = .ret ⟨"github.com".toList, "org/my rep".toList, "my%20repo".toList, none⟩ := by
  decide

/-- C2: when `Init` fails, `getClientAdapter` returns a default-constructed GitHub adapter
with a nil error, for `github` and for `gitlab` alike, and `FetchClientData` goes on to
fetch with it instead of returning the error. -/
theorem getClientAdapter_init_error_swallowed :
    (getClientAdapter initFailsEnv GithubPlatform "tok".toList "github.com".toList).err = none
    ∧ (getClientAdapter initFailsEnv GithubPlatform "tok".toList "github.com".toList).adapter.isSome
        = true
    ∧ (getClientAdapter initFailsEnv GitlabPlatform "tok".toList "gitlab.com".toList).err = none
    ∧ (getClientAdapter initFailsEnv GitlabPlatform "tok".toList "gitlab.com".toList).adapter.isSome
        = true
    ∧ FetchClientData initFailsEnv "tok".toList "https://github.com/org/repo".toList [] []
        = ⟨[Call.Init GithubPlatform "tok".toList "github.com".toList, Call.GetAuthorizedUser,
              Call.GetRepository "org".toList "repo".toList [], Call.ListSupportedChecksIDs],
            .ret ⟨some ⟨none, none, none, none, [], none⟩, [], some ⟨"no client".toList⟩⟩⟩ := by
  decide

/-- C3: for the platform `bitbucket` on the host `git.example.com`, `getClientAdapter`
returns the nil adapter with a nil error, and `FetchClientData` panics on the first
method call, `GetAuthorizedUser`, on that nil adapter. -/
theorem getClientAdapter_unknown_platform_nil :
    (getClientAdapter (sampleEnv sampleAdapter) "bitbucket".toList "tok".toList
        "git.example.com".toList).err = none
    ∧ (getClientAdapter (sampleEnv sampleAdapter) "bitbucket".toList "tok".toList
        "git.example.com".toList).adapter.isSome = false
    ∧ FetchClientData (sampleEnv sampleAdapter) "tok".toList
        "https://git.example.com/org/repo".toList "bitbucket".toList []
        = ⟨[], .panic nilDereference⟩ := by
  decide

/-- C4: `GetRegistry` and `ListOrganizationMembers` are called also when `GetOrganization`
yields no organization.  With the member list failing too the run returns a snapshot
after both calls; with the member list served, line 73 writes through the nil
organization and the run panics. -/
theorem FetchClientData_registry_members_without_org :
    FetchClientData (sampleEnv orgAndMembersFailAdapter) "tok".toList
        "https://github.com/org/repo".toList [] []
      = ⟨[Call.Init GithubPlatform "tok".toList "github.com".toList, Call.GetAuthorizedUser,
            Call.GetRepository "org".toList "repo".toList [],
            Call.GetBranchProtection "org".toList sampleRepo "main".toList,
            Call.GetPipelines "org".toList "repo".toList "main".toList,
            Call.GetOrganization "org".toList, Call.GetRegistry none,
            Call.ListOrganizationMembers "org".toList, Call.ListSupportedChecksIDs],
          .ret ⟨some ⟨some ⟨some "me".toList, some "User".toList⟩, none, some sampleRepo,
            some ⟨1⟩, [⟨2⟩], some ⟨3⟩⟩, ["1.1.3".toList], none⟩⟩
    ∧ FetchClientData (sampleEnv orgFailsAdapter) "tok".toList
        "https://github.com/org/repo".toList [] []
      = ⟨[Call.Init GithubPlatform "tok".toList "github.com".toList, Call.GetAuthorizedUser,
            Call.GetRepository "org".toList "repo".toList [],
            Call.GetBranchProtection "org".toList sampleRepo "main".toList,
            Call.GetPipelines "org".toList "repo".toList "main".toList,
            Call.GetOrganization "org".toList, Call.GetRegistry none,
            Call.ListOrganizationMembers "org".toList],
          .panic nilDereference⟩ := by
  decide

/-- C5, as stated, fails: `GetRepository` fails on this adapter, it returns an error, but
it hands back a repository with it.  Line 48 discards the error and line 56 looks at the
repository only, so the run goes on to call `GetBranchProtection`, `GetPipelines`,
`GetOrganization`, `GetRegistry` and `ListOrganizationMembers`, and every field of the
snapshot is set. -/
theorem FetchClientData_repository_error_ignored :
    repoWithErrorAdapter.GetRepository "org".toList "repo".toList []
      = (some sampleRepo, some ⟨"secondary rate limit".toList⟩)
    ∧ FetchClientData (sampleEnv repoWithErrorAdapter) "tok".toList
        "https://github.com/org/repo".toList [] []
      = ⟨[Call.Init GithubPlatform "tok".toList "github.com".toList, Call.GetAuthorizedUser,
            Call.GetRepository "org".toList "repo".toList [],
            Call.GetBranchProtection "org".toList sampleRepo "main".toList,
            Call.GetPipelines "org".toList "repo".toList "main".toList,
            Call.GetOrganization "org".toList, Call.GetRegistry (some sampleOrg),
            Call.ListOrganizationMembers "org".toList, Call.ListSupportedChecksIDs],
          .ret ⟨some ⟨some ⟨some "me".toList, some "User".toList⟩,
            some ⟨some "org".toList, [⟨some "member".toList, some "User".toList⟩]⟩,
            some sampleRepo, some ⟨1⟩, [⟨2⟩], some ⟨3⟩⟩, ["1.1.3".toList], none⟩⟩ := by
  decide

/-- C5, amended: when the URL resolves and the adapter is constructed, and `GetRepository`
yields no repository, with or without an error, the run makes exactly the calls
`GetAuthorizedUser`, `GetRepository` and `ListSupportedChecksIDs` after the adapter's
construction (none of `GetBranchProtection`, `GetPipelines`, `GetOrganization`,
`GetRegistry`, `ListOrganizationMembers`), and it returns a snapshot whose Repository,
BranchProtections, Pipelines, Organization and Registry are unset. -/
theorem FetchClientData_repository_absent (env : Env)
    (accessToken repoUrl scmPlatform branch host orgName repoName : GoString)
    (adapter : ClientAdapter) (calls : List Call)
    (hurl : getRepoInfo env.Parse repoUrl = .ret ⟨host, orgName, repoName, none⟩)
    (hadapter : getClientAdapter env (selectPlatform host scmPlatform) accessToken host
      = ⟨some adapter, none, calls⟩)
    (hrepo : (adapter.GetRepository orgName repoName branch).1 = none) :
    FetchClientData env accessToken repoUrl scmPlatform branch
      = ⟨calls ++ [Call.GetAuthorizedUser, Call.GetRepository orgName repoName branch,
            Call.ListSupportedChecksIDs],
          .ret ⟨some ⟨adapter.GetAuthorizedUser.1, none, none, none, [], none⟩,
            adapter.ListSupportedChecksIDs.1, adapter.ListSupportedChecksIDs.2⟩⟩ := by
  rw [FetchClientData_eq_fetchWith env accessToken repoUrl scmPlatform branch host orgName
    repoName adapter calls hurl hadapter, fetchWith_no_repository adapter orgName repoName
    branch hrepo]

/-- C5, amended, at concrete inputs: `https://github.com/org/repo` with a `GetRepository`
that returns an error and no repository, and with one that returns neither. -/
theorem FetchClientData_repository_absent_witness :
    (repoFailsAdapter.GetRepository "org".toList "repo".toList []
        = (none, some ⟨"404 Not Found".toList⟩)
      ∧ FetchClientData (sampleEnv repoFailsAdapter) "tok".toList
          "https://github.com/org/repo".toList [] []
        = ⟨[Call.Init GithubPlatform "tok".toList "github.com".toList,
              Call.GetAuthorizedUser, Call.GetRepository "org".toList "repo".toList [],
              Call.ListSupportedChecksIDs],
            .ret ⟨some ⟨some ⟨some "me".toList, some "User".toList⟩, none, none, none, [],
              none⟩, ["1.1.3".toList], none⟩⟩)
    ∧ (repoMissingAdapter.GetRepository "org".toList "repo".toList [] = (none, none)
      ∧ FetchClientData (sampleEnv repoMissingAdapter) "tok".toList
          "https://github.com/org/repo".toList [] []
        = ⟨[Call.Init GithubPlatform "tok".toList "github.com".toList,
              Call.GetAuthorizedUser, Call.GetRepository "org".toList "repo".toList [],
              Call.ListSupportedChecksIDs],
            .ret ⟨some ⟨some ⟨some "me".toList, some "User".toList⟩, none, none, none, [],
              none⟩, ["1.1.3".toList], none⟩⟩) :=
  ⟨⟨rfl,
      FetchClientData_repository_absent (sampleEnv repoFailsAdapter) "tok".toList
        "https://github.com/org/repo".toList [] [] "github.com".toList "org".toList
        "repo".toList repoFailsAdapter
        [Call.Init GithubPlatform "tok".toList "github.com".toList] (by decide) rfl rfl⟩,
    ⟨rfl,
      FetchClientData_repository_absent (sampleEnv repoMissingAdapter) "tok".toList
        "https://github.com/org/repo".toList [] [] "github.com".toList "org".toList
        "repo".toList repoMissingAdapter
        [Call.Init GithubPlatform "tok".toList "github.com".toList] (by decide) rfl rfl⟩⟩

/-- C7: once the URL resolves to the host `host`, `FetchClientData` constructs the adapter
with `getClientAdapter` for the platform `github` when the host is `github.com` and for
`gitlab` when it is `gitlab.com`, whatever the explicit platform argument; for every
other host it passes the explicit platform argument on unchanged. -/
theorem FetchClientData_platform_selection (env : Env)
    (accessToken repoUrl scmPlatform branch host orgName repoName : GoString)
    (hurl : getRepoInfo env.Parse repoUrl = .ret ⟨host, orgName, repoName, none⟩) :
    (host = GithubEndpoint →
      FetchClientData env accessToken repoUrl scmPlatform branch
        = fetchFrom (getClientAdapter env GithubPlatform accessToken host)
            orgName repoName branch)
    ∧ (host = GitlabEndpoint →
      FetchClientData env accessToken repoUrl scmPlatform branch
        = fetchFrom (getClientAdapter env GitlabPlatform accessToken host)
            orgName repoName branch)
    ∧ (host ≠ GithubEndpoint → host ≠ GitlabEndpoint →
      FetchClientData env accessToken repoUrl scmPlatform branch
        = fetchFrom (getClientAdapter env scmPlatform accessToken host)
            orgName repoName branch) := by
  refine ⟨fun h => ?_, fun h => ?_, fun h1 h2 => ?_⟩
  · simp [FetchClientData, hurl, selectPlatform, h]
  · have hne : GitlabEndpoint ≠ GithubEndpoint := by decide
    simp [FetchClientData, hurl, selectPlatform, h, hne]
  · simp [FetchClientData, hurl, selectPlatform, h1, h2]

/-- C7, at concrete inputs: `github.com` with the explicit platform `gitlab`, `gitlab.com`
with the explicit platform `github`, and `git.example.com` with the explicit platform
`gitlab`; the first call of each run is the `Init` of the selected platform. -/
theorem FetchClientData_platform_selection_witness :
    (FetchClientData (sampleEnv sampleAdapter) "tok".toList
        "https://github.com/org/repo".toList GitlabPlatform []
      = fetchFrom (getClientAdapter (sampleEnv sampleAdapter) GithubPlatform "tok".toList
          "github.com".toList) "org".toList "repo".toList []
      ∧ (FetchClientData (sampleEnv sampleAdapter) "tok".toList
          "https://github.com/org/repo".toList GitlabPlatform []).calls.head?
        = some (Call.Init GithubPlatform "tok".toList "github.com".toList))
    ∧ (FetchClientData (sampleEnv sampleAdapter) "tok".toList
        "https://gitlab.com/group/subgroup/project".toList GithubPlatform []
      = fetchFrom (getClientAdapter (sampleEnv sampleAdapter) GitlabPlatform "tok".toList
          "gitlab.com".toList) "group/subgroup".toList "project".toList []
      ∧ (FetchClientData (sampleEnv sampleAdapter) "tok".toList
          "https://gitlab.com/group/subgroup/project".toList GithubPlatform []).calls.head?
        = some (Call.Init GitlabPlatform "tok".toList "gitlab.com".toList))
    ∧ (FetchClientData (sampleEnv sampleAdapter) "tok".toList
        "https://git.example.com/org/repo".toList GitlabPlatform []
      = fetchFrom (getClientAdapter (sampleEnv sampleAdapter) GitlabPlatform "tok".toList
          "git.example.com".toList) "org".toList "repo".toList []
      ∧ (FetchClientData (sampleEnv sampleAdapter) "tok".toList
          "https://git.example.com/org/repo".toList GitlabPlatform []).calls.head?
        = some (Call.Init GitlabPlatform "tok".toList "git.example.com".toList)) :=
  ⟨⟨(FetchClientData_platform_selection (sampleEnv sampleAdapter) "tok".toList
        "https://github.com/org/repo".toList GitlabPlatform [] "github.com".toList
        "org".toList "repo".toList (by decide)).1 (by decide), by decide⟩,
    ⟨(FetchClientData_platform_selection (sampleEnv sampleAdapter) "tok".toList
        "https://gitlab.com/group/subgroup/project".toList GithubPlatform []
        "gitlab.com".toList "group/subgroup".toList "project".toList (by decide)).2.1
        (by decide), by decide⟩,
    ⟨(FetchClientData_platform_selection (sampleEnv sampleAdapter) "tok".toList
        "https://git.example.com/org/repo".toList GitlabPlatform [] "git.example.com".toList
        "org".toList "repo".toList (by decide)).2.2 (by decide) (by decide), by decide⟩⟩

/-- C8: a malformed repository URL makes `getRepoInfo` return a non-nil error with host,
organization and repository all empty.  A URL that does not parse fails with the parse
error; one that parses with an empty scheme fails with "error in parsing the host"; one
whose escaped path split on "/" has fewer than 3 elements fails with "missing org/repo
in the repository url: " followed by the URL. -/
theorem getRepoInfo_malformed (Parse : GoString → Except GoError URL)
    (repoFullUrl : GoString) :
    (∀ err, Parse repoFullUrl = .error err →
      getRepoInfo Parse repoFullUrl = .ret ⟨[], [], [], some err⟩)
    ∧ (∀ u, Parse repoFullUrl = .ok u → u.Scheme = [] →
      getRepoInfo Parse repoFullUrl
        = .ret ⟨[], [], [], some ⟨"error in parsing the host".toList⟩⟩)
    ∧ (∀ u, Parse repoFullUrl = .ok u → u.Scheme ≠ [] →
      (strings.Split u.EscapedPath "/".toList).length < 3 →
      getRepoInfo Parse repoFullUrl
        = .ret ⟨[], [], [],
            some ⟨"missing org/repo in the repository url: ".toList ++ repoFullUrl⟩⟩) := by
  refine ⟨fun err h => ?_, fun u h hs => ?_, fun u h hs hlen => ?_⟩
  · simp [getRepoInfo, h]
  · simp [getRepoInfo, h, hs]
  · unfold getRepoInfo
    simp only [h]
    rw [if_neg hs]
    simp only [hlen, if_true]

/-- C8, at concrete inputs: `:foo` does not parse, `github.com/org/repo` has no scheme,
`https://github.com/org` has one path segment and `https://github.com` has no path. -/
theorem getRepoInfo_malformed_witness :
    getRepoInfo exampleParse ":foo".toList
      = .ret ⟨[], [], [], some ⟨"parse \":foo\": missing protocol scheme".toList⟩⟩
    ∧ getRepoInfo exampleParse "github.com/org/repo".toList
      = .ret ⟨[], [], [], some ⟨"error in parsing the host".toList⟩⟩
    ∧ getRepoInfo exampleParse "https://github.com/org".toList
      = .ret ⟨[], [], [],
          some ⟨"missing org/repo in the repository url: https://github.com/org".toList⟩⟩
    ∧ getRepoInfo exampleParse "https://github.com".toList
      = .ret ⟨[], [], [],
          some ⟨"missing org/repo in the repository url: https://github.com".toList⟩⟩ :=
  ⟨(getRepoInfo_malformed exampleParse ":foo".toList).1 _ rfl,
    (getRepoInfo_malformed exampleParse "github.com/org/repo".toList).2.1
      ⟨[], [], "github.com/org/repo".toList, "github.com/org/repo".toList⟩ rfl rfl,
    (getRepoInfo_malformed exampleParse "https://github.com/org".toList).2.2
      ⟨"https".toList, "github.com".toList, "/org".toList, "/org".toList⟩ rfl
      (by decide) (by decide),
    (getRepoInfo_malformed exampleParse "https://github.com".toList).2.2
      ⟨"https".toList, "github.com".toList, [], []⟩ rfl (by decide) (by decide)⟩

/-- C9: when the repository is obtained and its owner kind is a string other than
"Organization" (such as "User"), the run calls none of `GetOrganization`, `GetRegistry`
and `ListOrganizationMembers`: after the adapter's construction it makes exactly the calls
`GetAuthorizedUser`, `GetRepository`, `GetBranchProtection`, `GetPipelines` and
`ListSupportedChecksIDs`, and the snapshot it returns has Organization and Registry
unset, whatever `GetOrganization` would return. -/
theorem FetchClientData_owner_not_organization (env : Env)
    (accessToken repoUrl scmPlatform branch host orgName repoName ownerType : GoString)
    (adapter : ClientAdapter) (calls : List Call) (r : Repository) (owner : User)
    (hurl : getRepoInfo env.Parse repoUrl = .ret ⟨host, orgName, repoName, none⟩)
    (hadapter : getClientAdapter env (selectPlatform host scmPlatform) accessToken host
      = ⟨some adapter, none, calls⟩)
    (hrepo : (adapter.GetRepository orgName repoName branch).1 = some r)
    (howner : r.Owner = some owner) (htype : owner.Type_ = some ownerType)
    (hkind : ownerType ≠ "Organization".toList) :
    FetchClientData env accessToken repoUrl scmPlatform branch
      = ⟨calls ++ [Call.GetAuthorizedUser, Call.GetRepository orgName repoName branch,
            Call.GetBranchProtection orgName r
              (utils.GetBranchName (utils.GetValue r.DefaultBranch) branch),
            Call.GetPipelines orgName repoName
              (utils.GetBranchName (utils.GetValue r.DefaultBranch) branch),
            Call.ListSupportedChecksIDs],
          .ret ⟨some ⟨adapter.GetAuthorizedUser.1, none, some r,
              (adapter.GetBranchProtection orgName r
                (utils.GetBranchName (utils.GetValue r.DefaultBranch) branch)).1,
              (adapter.GetPipelines orgName repoName
                (utils.GetBranchName (utils.GetValue r.DefaultBranch) branch)).1, none⟩,
            adapter.ListSupportedChecksIDs.1, adapter.ListSupportedChecksIDs.2⟩⟩ := by
  rw [FetchClientData_eq_fetchWith env accessToken repoUrl scmPlatform branch host orgName
    repoName adapter calls hurl hadapter, fetchWith_owner_not_organization adapter orgName
    repoName branch ownerType r owner hrepo howner htype hkind]

/-- C9, at a concrete input: a repository owned by a user account, on an adapter whose
`GetOrganization` would succeed. -/
theorem FetchClientData_owner_not_organization_witness :
    (userOwnedAdapter.GetOrganization "org".toList).1 = some sampleOrg
    ∧ FetchClientData (sampleEnv userOwnedAdapter) "tok".toList
        "https://github.com/org/repo".toList [] []
      = ⟨[Call.Init GithubPlatform "tok".toList "github.com".toList, Call.GetAuthorizedUser,
            Call.GetRepository "org".toList "repo".toList [],
            Call.GetBranchProtection "org".toList userRepo "main".toList,
            Call.GetPipelines "org".toList "repo".toList "main".toList,
            Call.ListSupportedChecksIDs],
          .ret ⟨some ⟨some ⟨some "me".toList, some "User".toList⟩, none, some userRepo,
            some ⟨1⟩, [⟨2⟩], none⟩, ["1.1.3".toList], none⟩⟩ :=
  ⟨rfl,
    FetchClientData_owner_not_organization (sampleEnv userOwnedAdapter) "tok".toList
      "https://github.com/org/repo".toList [] [] "github.com".toList "org".toList
      "repo".toList "User".toList userOwnedAdapter
      [Call.Init GithubPlatform "tok".toList "github.com".toList] userRepo
      ⟨some "org".toList, some "User".toList⟩ (by decide) rfl rfl rfl rfl (by decide)⟩

/-- C10, as stated, fails: when `GetOrganization` returns an organization that already
has a member and `ListOrganizationMembers` fails, the snapshot's organization is that
organization, member included; its member list is not empty. -/
theorem FetchClientData_members_fail_member_kept :
    memberInOrgAdapter.GetOrganization "org".toList = (some orgWithMember, none)
    ∧ (memberInOrgAdapter.ListOrganizationMembers "org".toList).2
        = some ⟨"403 Forbidden".toList⟩
    ∧ FetchClientData (sampleEnv memberInOrgAdapter) "tok".toList
        "https://github.com/org/repo".toList [] []
      = ⟨[Call.Init GithubPlatform "tok".toList "github.com".toList, Call.GetAuthorizedUser,
            Call.GetRepository "org".toList "repo".toList [],
            Call.GetBranchProtection "org".toList sampleRepo "main".toList,
            Call.GetPipelines "org".toList "repo".toList "main".toList,
            Call.GetOrganization "org".toList, Call.GetRegistry (some orgWithMember),
            Call.ListOrganizationMembers "org".toList, Call.ListSupportedChecksIDs],
          .ret ⟨some ⟨some ⟨some "me".toList, some "User".toList⟩,
            some ⟨some "org".toList, [⟨some "founder".toList, some "User".toList⟩]⟩,
            some sampleRepo, some ⟨1⟩, [⟨2⟩], some ⟨3⟩⟩, ["1.1.3".toList], none⟩⟩ := by
  decide

/-- C10, amended: when the repository is owned by an organization, `GetOrganization`
produced the organization `o` and `ListOrganizationMembers` fails, the run returns a
snapshot whose Organization is present and is exactly `o`, as `GetOrganization` returned
it: nothing is discarded and no member is attached, so its member list is the one
`GetOrganization` returned. -/
theorem FetchClientData_members_fail (env : Env)
    (accessToken repoUrl scmPlatform branch host orgName repoName : GoString)
    (adapter : ClientAdapter) (calls : List Call) (r : Repository) (owner : User)
    (o : Organization) (e : GoError)
    (hurl : getRepoInfo env.Parse repoUrl = .ret ⟨host, orgName, repoName, none⟩)
    (hadapter : getClientAdapter env (selectPlatform host scmPlatform) accessToken host
      = ⟨some adapter, none, calls⟩)
    (hrepo : (adapter.GetRepository orgName repoName branch).1 = some r)
    (howner : r.Owner = some owner) (htype : owner.Type_ = some "Organization".toList)
    (horg : (adapter.GetOrganization orgName).1 = some o)
    (hmembers : (adapter.ListOrganizationMembers orgName).2 = some e) :
    FetchClientData env accessToken repoUrl scmPlatform branch
      = ⟨calls ++ [Call.GetAuthorizedUser, Call.GetRepository orgName repoName branch,
            Call.GetBranchProtection orgName r
              (utils.GetBranchName (utils.GetValue r.DefaultBranch) branch),
            Call.GetPipelines orgName repoName
              (utils.GetBranchName (utils.GetValue r.DefaultBranch) branch),
            Call.GetOrganization orgName, Call.GetRegistry (some o),
            Call.ListOrganizationMembers orgName, Call.ListSupportedChecksIDs],
          .ret ⟨some ⟨adapter.GetAuthorizedUser.1, some o, some r,
              (adapter.GetBranchProtection orgName r
                (utils.GetBranchName (utils.GetValue r.DefaultBranch) branch)).1,
              (adapter.GetPipelines orgName repoName
                (utils.GetBranchName (utils.GetValue r.DefaultBranch) branch)).1,
              (adapter.GetRegistry (some o)).1⟩,
            adapter.ListSupportedChecksIDs.1, adapter.ListSupportedChecksIDs.2⟩⟩ := by
  rw [FetchClientData_eq_fetchWith env accessToken repoUrl scmPlatform branch host orgName
    repoName adapter calls hurl hadapter, fetchWith_members_fail adapter orgName repoName
    branch r owner o e hrepo howner htype horg hmembers]

/-- C10, amended, at a concrete input: the organization comes without members, the member
list fetch fails, and the snapshot holds the organization with an empty member list. -/
theorem FetchClientData_members_fail_witness :
    sampleOrg.Members = []
    ∧ FetchClientData (sampleEnv membersFailAdapter) "tok".toList
        "https://github.com/org/repo".toList [] []
      = ⟨[Call.Init GithubPlatform "tok".toList "github.com".toList, Call.GetAuthorizedUser,
            Call.GetRepository "org".toList "repo".toList [],
            Call.GetBranchProtection "org".toList sampleRepo "main".toList,
            Call.GetPipelines "org".toList "repo".toList "main".toList,
            Call.GetOrganization "org".toList, Call.GetRegistry (some sampleOrg),
            Call.ListOrganizationMembers "org".toList, Call.ListSupportedChecksIDs],
          .ret ⟨some ⟨some ⟨some "me".toList, some "User".toList⟩, some sampleOrg,
            some sampleRepo, some ⟨1⟩, [⟨2⟩], some ⟨3⟩⟩, ["1.1.3".toList], none⟩⟩ :=
  ⟨rfl,
    FetchClientData_members_fail (sampleEnv membersFailAdapter) "tok".toList
      "https://github.com/org/repo".toList [] [] "github.com".toList "org".toList
      "repo".toList membersFailAdapter
      [Call.Init GithubPlatform "tok".toList "github.com".toList] sampleRepo
      ⟨some "org".toList, some "Organization".toList⟩ sampleOrg ⟨"403 Forbidden".toList⟩
      (by decide) rfl rfl rfl rfl rfl rfl⟩

/-- C11: a tolerated failure is not always absorbed.  `GetOrganization` fails on this
adapter (an error and no organization) while `ListOrganizationMembers` succeeds: line 73
then writes the members through the nil organization, the run panics after the call of
`ListOrganizationMembers`, and nothing is returned, neither a snapshot nor the error of
`ListSupportedChecksIDs`, which is never called. -/
theorem FetchClientData_org_failure_not_absorbed :
    Fails (orgFailsAdapter.GetOrganization "org".toList)
    ∧ (orgFailsAdapter.ListOrganizationMembers "org".toList).2 = none
    ∧ (FetchClientData (sampleEnv orgFailsAdapter) "tok".toList
        "https://github.com/org/repo".toList [] []).outcome = .panic nilDereference
    ∧ (FetchClientData (sampleEnv orgFailsAdapter) "tok".toList
        "https://github.com/org/repo".toList [] []).calls.getLast?
        = some (Call.ListOrganizationMembers "org".toList) :=
  ⟨⟨by decide, rfl⟩, rfl, by decide, by decide⟩

/-- C12: when `getRepoInfo` returns an error, `FetchClientData` returns a nil snapshot,
nil check IDs and that same error, and its trace is empty: no `Init`, so no adapter is
constructed, and no fetch call. -/
theorem FetchClientData_url_failure (env : Env)
    (accessToken repoUrl scmPlatform branch : GoString) (info : RepoInfo) (err : GoError)
    (hurl : getRepoInfo env.Parse repoUrl = .ret info) (herr : info.err = some err) :
    FetchClientData env accessToken repoUrl scmPlatform branch
      = ⟨[], .ret ⟨none, [], some err⟩⟩ := by
  simp [FetchClientData, hurl, herr]

/-- C12, at a concrete input: `https://github.com/org` has no repository segment. -/
theorem FetchClientData_url_failure_witness :
    FetchClientData (sampleEnv sampleAdapter) "tok".toList "https://github.com/org".toList
        GithubPlatform []
      = ⟨[], .ret ⟨none, [],
          some ⟨"missing org/repo in the repository url: https://github.com/org".toList⟩⟩⟩ :=
  FetchClientData_url_failure (sampleEnv sampleAdapter) "tok".toList
    "https://github.com/org".toList GithubPlatform []
    ⟨[], [], [],
      some ⟨"missing org/repo in the repository url: https://github.com/org".toList⟩⟩
    ⟨"missing org/repo in the repository url: https://github.com/org".toList⟩
    (by decide) rfl

/-- C13: for `https://gitlab.com/group/subgroup/project`, which `url.Parse` splits into
the scheme `https`, the host `gitlab.com` and the path `/group/subgroup/project`,
`getRepoInfo` returns the host `gitlab.com`, the organization `group/subgroup`, the
repository `project` and a nil error. -/
theorem getRepoInfo_gitlab_subgroup :
    getRepoInfo exampleParse "https://gitlab.com/group/subgroup/project".toList
      = .ret ⟨"gitlab.com".toList, "group/subgroup".toList, "project".toList, none⟩ := by
  decide

/-! ## Further facts about the fetch sequence -/

/-- The `Init` call of `getClientAdapter` is the only call it makes: no fetch method. -/
theorem getClientAdapter_calls_no_fetch (env : Env) (scmPlatform accessToken host : GoString) :
    (getClientAdapter env scmPlatform accessToken host).calls.filterMap Call.method = [] := by
  unfold getClientAdapter
  simp only
  split <;> split <;> (try split) <;> simp_all [Call.method]

/-- The fetch sequence calls the fetch methods in the fixed order, whatever its outcome. -/
theorem fetchWith_calls_in_order (adapter : ClientAdapter) (orgName repoName branch : GoString) :
    ((fetchWith adapter orgName repoName branch).calls.filterMap Call.method).Sublist
      fetchOrder := by
  unfold fetchWith
  simp only
  repeat' split
  all_goals
    simp only [List.cons_append, List.nil_append, List.filterMap_cons, List.filterMap_nil,
      Call.method]
    decide

/-- The effective branch name of line 57, spelled out. -/
theorem GetBranchName_GetValue (defaultBranch : Option GoString) (branch : GoString) :
    utils.GetBranchName (utils.GetValue defaultBranch) branch
      = if branch ≠ [] then branch else defaultBranch.getD [] := by
  cases defaultBranch <;> simp [utils.GetBranchName, utils.GetValue]

/-- With a repository, the fetch sequence starts with the two calls that need none and
goes on with `GetBranchProtection` and `GetPipelines` on the effective branch name; no
later call is one of these two. -/
theorem fetchWith_branch_calls (adapter : ClientAdapter) (orgName repoName branch : GoString)
    (r : Repository) (hrepo : (adapter.GetRepository orgName repoName branch).1 = some r) :
    ∃ tail, (fetchWith adapter orgName repoName branch).calls
        = [Call.GetAuthorizedUser, Call.GetRepository orgName repoName branch,
            Call.GetBranchProtection orgName r
              (utils.GetBranchName (utils.GetValue r.DefaultBranch) branch),
            Call.GetPipelines orgName repoName
              (utils.GetBranchName (utils.GetValue r.DefaultBranch) branch)] ++ tail
      ∧ ∀ c ∈ tail, c.method ≠ some Method.GetBranchProtection
          ∧ c.method ≠ some Method.GetPipelines := by
  unfold fetchWith
  simp only [hrepo]
  repeat' split
  all_goals
    refine ⟨_, rfl, ?_⟩
    simp [Call.method]

/-- The full path: an organization's repository, the organization obtained and the member
list served. -/
theorem fetchWith_full_path (adapter : ClientAdapter)
    (orgName repoName branch : GoString) (r : Repository) (owner : User) (o : Organization)
    (hrepo : (adapter.GetRepository orgName repoName branch).1 = some r)
    (howner : r.Owner = some owner) (htype : owner.Type_ = some "Organization".toList)
    (horg : (adapter.GetOrganization orgName).1 = some o)
    (hmembers : (adapter.ListOrganizationMembers orgName).2 = none) :
    fetchWith adapter orgName repoName branch
      = ⟨[Call.GetAuthorizedUser, Call.GetRepository orgName repoName branch,
            Call.GetBranchProtection orgName r
              (utils.GetBranchName (utils.GetValue r.DefaultBranch) branch),
            Call.GetPipelines orgName repoName
              (utils.GetBranchName (utils.GetValue r.DefaultBranch) branch),
            Call.GetOrganization orgName, Call.GetRegistry (some o),
            Call.ListOrganizationMembers orgName, Call.ListSupportedChecksIDs],
          .ret ⟨some ⟨adapter.GetAuthorizedUser.1,
              some { o with Members := (adapter.ListOrganizationMembers orgName).1 }, some r,
              (adapter.GetBranchProtection orgName r
                (utils.GetBranchName (utils.GetValue r.DefaultBranch) branch)).1,
              (adapter.GetPipelines orgName repoName
                (utils.GetBranchName (utils.GetValue r.DefaultBranch) branch)).1,
              (adapter.GetRegistry (some o)).1⟩,
            adapter.ListSupportedChecksIDs.1, adapter.ListSupportedChecksIDs.2⟩⟩ := by
  simp [fetchWith, hrepo, howner, htype, horg, hmembers]

/-! ## The claims on the fetch sequence -/

/-- C14, as stated, fails: on an adapter whose `GetRepository` yields no repository, the
run does call `ListSupportedChecksIDs` and returns the check IDs of that call next to the
snapshot. -/
theorem FetchClientData_checks_called_without_repository :
    (repoFailsAdapter.GetRepository "org".toList "repo".toList []).1 = none
    ∧ Call.ListSupportedChecksIDs
        ∈ (FetchClientData (sampleEnv repoFailsAdapter) "tok".toList
            "https://github.com/org/repo".toList [] []).calls
    ∧ (FetchClientData (sampleEnv repoFailsAdapter) "tok".toList
        "https://github.com/org/repo".toList [] []).outcome
      = .ret ⟨some ⟨some ⟨some "me".toList, some "User".toList⟩, none, none, none, [], none⟩,
          ["1.1.3".toList], none⟩ := by
  decide

/-- C14, amended: when `GetRepository` yields no repository, steps 6 to 8 are skipped and
step 9 still runs: the fetch methods called are `GetAuthorizedUser`, `GetRepository` and
`ListSupportedChecksIDs`, in this order, and the run returns a snapshot holding only the
authorized user, together with the check IDs and the error of `ListSupportedChecksIDs`. -/
theorem FetchClientData_repository_absent_steps (env : Env)
    (accessToken repoUrl scmPlatform branch host orgName repoName : GoString)
    (adapter : ClientAdapter) (calls : List Call)
    (hurl : getRepoInfo env.Parse repoUrl = .ret ⟨host, orgName, repoName, none⟩)
    (hadapter : getClientAdapter env (selectPlatform host scmPlatform) accessToken host
      = ⟨some adapter, none, calls⟩)
    (hrepo : (adapter.GetRepository orgName repoName branch).1 = none) :
    (FetchClientData env accessToken repoUrl scmPlatform branch).calls.filterMap Call.method
      = [Method.GetAuthorizedUser, Method.GetRepository, Method.ListSupportedChecksIDs]
    ∧ (FetchClientData env accessToken repoUrl scmPlatform branch).outcome
      = .ret ⟨some ⟨adapter.GetAuthorizedUser.1, none, none, none, [], none⟩,
          adapter.ListSupportedChecksIDs.1, adapter.ListSupportedChecksIDs.2⟩ := by
  have hinit := getClientAdapter_calls_no_fetch env (selectPlatform host scmPlatform)
    accessToken host
  rw [hadapter] at hinit
  simp only at hinit
  rw [FetchClientData_eq_fetchWith env accessToken repoUrl scmPlatform branch host orgName
    repoName adapter calls hurl hadapter, fetchWith_no_repository adapter orgName repoName
    branch hrepo]
  simp [List.filterMap_append, hinit, Call.method]

/-- C14, amended, at a concrete input: `https://gitlab.com/group/subgroup/project` with a
failing `GetRepository`. -/
theorem FetchClientData_repository_absent_steps_witness :
    (FetchClientData (sampleEnv repoFailsAdapter) "tok".toList
        "https://gitlab.com/group/subgroup/project".toList [] []).calls.filterMap Call.method
      = [Method.GetAuthorizedUser, Method.GetRepository, Method.ListSupportedChecksIDs]
    ∧ (FetchClientData (sampleEnv repoFailsAdapter) "tok".toList
        "https://gitlab.com/group/subgroup/project".toList [] []).outcome
      = .ret ⟨some ⟨some ⟨some "me".toList, some "User".toList⟩, none, none, none, [], none⟩,
          ["1.1.3".toList], none⟩ :=
  FetchClientData_repository_absent_steps (sampleEnv repoFailsAdapter) "tok".toList
    "https://gitlab.com/group/subgroup/project".toList [] [] "gitlab.com".toList
    "group/subgroup".toList "project".toList repoFailsAdapter
    [Call.Init GitlabPlatform "tok".toList "gitlab.com".toList] (by decide) rfl rfl

/-- C15: when the repository is present, the run calls, right after `GetAuthorizedUser`
and `GetRepository`, `GetBranchProtection` and `GetPipelines` with one and the same
branch name, the explicit branch argument when it is non-empty and otherwise the
repository's default branch (the empty string when that is nil); no later call of the
run is a `GetBranchProtection` or a `GetPipelines`. -/
theorem FetchClientData_effective_branch (env : Env)
    (accessToken repoUrl scmPlatform branch host orgName repoName : GoString)
    (adapter : ClientAdapter) (calls : List Call) (r : Repository)
    (hurl : getRepoInfo env.Parse repoUrl = .ret ⟨host, orgName, repoName, none⟩)
    (hadapter : getClientAdapter env (selectPlatform host scmPlatform) accessToken host
      = ⟨some adapter, none, calls⟩)
    (hrepo : (adapter.GetRepository orgName repoName branch).1 = some r) :
    ∃ tail, (FetchClientData env accessToken repoUrl scmPlatform branch).calls
        = calls ++ [Call.GetAuthorizedUser, Call.GetRepository orgName repoName branch,
            Call.GetBranchProtection orgName r
              (if branch ≠ [] then branch else r.DefaultBranch.getD []),
            Call.GetPipelines orgName repoName
              (if branch ≠ [] then branch else r.DefaultBranch.getD [])] ++ tail
      ∧ ∀ c ∈ tail, c.method ≠ some Method.GetBranchProtection
          ∧ c.method ≠ some Method.GetPipelines := by
  obtain ⟨tail, hcalls, htail⟩ := fetchWith_branch_calls adapter orgName repoName branch r hrepo
  refine ⟨tail, ?_, htail⟩
  rw [FetchClientData_eq_fetchWith env accessToken repoUrl scmPlatform branch host orgName
    repoName adapter calls hurl hadapter]
  simp only [hcalls, GetBranchName_GetValue, List.append_assoc]

/-- C15, at concrete inputs: with the explicit branch `release` both calls get `release`,
with no explicit branch both get the default branch `main`. -/
theorem FetchClientData_effective_branch_witness :
    (∃ tail, (FetchClientData (sampleEnv userOwnedAdapter) "tok".toList
          "https://github.com/org/repo".toList [] "release".toList).calls
        = [Call.Init GithubPlatform "tok".toList "github.com".toList]
          ++ [Call.GetAuthorizedUser,
            Call.GetRepository "org".toList "repo".toList "release".toList,
            Call.GetBranchProtection "org".toList userRepo "release".toList,
            Call.GetPipelines "org".toList "repo".toList "release".toList] ++ tail
      ∧ ∀ c ∈ tail, c.method ≠ some Method.GetBranchProtection
          ∧ c.method ≠ some Method.GetPipelines)
    ∧ (∃ tail, (FetchClientData (sampleEnv userOwnedAdapter) "tok".toList
          "https://github.com/org/repo".toList [] []).calls
        = [Call.Init GithubPlatform "tok".toList "github.com".toList]
          ++ [Call.GetAuthorizedUser, Call.GetRepository "org".toList "repo".toList [],
            Call.GetBranchProtection "org".toList userRepo "main".toList,
            Call.GetPipelines "org".toList "repo".toList "main".toList] ++ tail
      ∧ ∀ c ∈ tail, c.method ≠ some Method.GetBranchProtection
          ∧ c.method ≠ some Method.GetPipelines) :=
  ⟨FetchClientData_effective_branch (sampleEnv userOwnedAdapter) "tok".toList
      "https://github.com/org/repo".toList [] "release".toList "github.com".toList
      "org".toList "repo".toList userOwnedAdapter
      [Call.Init GithubPlatform "tok".toList "github.com".toList] userRepo (by decide) rfl rfl,
    FetchClientData_effective_branch (sampleEnv userOwnedAdapter) "tok".toList
      "https://github.com/org/repo".toList [] [] "github.com".toList
      "org".toList "repo".toList userOwnedAdapter
      [Call.Init GithubPlatform "tok".toList "github.com".toList] userRepo (by decide) rfl rfl⟩

/-- C16: for every world and every input, the fetch methods one run of `FetchClientData`
calls, read in the order of the calls, form a subsequence of the fixed order
`GetAuthorizedUser`, `GetRepository`, `GetBranchProtection`, `GetPipelines`,
`GetOrganization`, `GetRegistry`, `ListOrganizationMembers`, `ListSupportedChecksIDs`, and
no method occurs twice: each step runs at most once, never out of order, never again. -/
theorem FetchClientData_calls_in_order (env : Env)
    (accessToken repoUrl scmPlatform branch : GoString) :
    ((FetchClientData env accessToken repoUrl scmPlatform branch).calls.filterMap
        Call.method).Sublist fetchOrder
    ∧ ((FetchClientData env accessToken repoUrl scmPlatform branch).calls.filterMap
        Call.method).Nodup := by
  have hsub : ((FetchClientData env accessToken repoUrl scmPlatform branch).calls.filterMap
      Call.method).Sublist fetchOrder := by
    unfold FetchClientData
    split
    · exact List.nil_sublist _
    · split
      · exact List.nil_sublist _
      · unfold fetchFrom
        split
        · simp only [getClientAdapter_calls_no_fetch]
          exact List.nil_sublist _
        · split
          · simp only [getClientAdapter_calls_no_fetch]
            exact List.nil_sublist _
          · simp only [List.filterMap_append, getClientAdapter_calls_no_fetch,
              List.nil_append]
            exact fetchWith_calls_in_order _ _ _ _
  exact ⟨hsub, hsub.nodup (by decide)⟩

/-- C17: when the URL resolves, the adapter is constructed, the repository is owned by an
organization, `GetOrganization` gives the organization `o`, `ListOrganizationMembers`
succeeds and `ListSupportedChecksIDs` succeeds, the run makes all eight fetch calls and
returns a nil error, the check IDs of `ListSupportedChecksIDs`, and a snapshot whose
AuthorizedUser, Repository, BranchProtections, Pipelines and Registry are the results of
the corresponding calls and whose Organization is `o` with its Members set to the result
of `ListOrganizationMembers`. -/
theorem FetchClientData_full_path (env : Env)
    (accessToken repoUrl scmPlatform branch host orgName repoName : GoString)
    (adapter : ClientAdapter) (calls : List Call) (r : Repository) (owner : User)
    (o : Organization)
    (hurl : getRepoInfo env.Parse repoUrl = .ret ⟨host, orgName, repoName, none⟩)
    (hadapter : getClientAdapter env (selectPlatform host scmPlatform) accessToken host
      = ⟨some adapter, none, calls⟩)
    (hrepo : (adapter.GetRepository orgName repoName branch).1 = some r)
    (howner : r.Owner = some owner) (htype : owner.Type_ = some "Organization".toList)
    (horg : (adapter.GetOrganization orgName).1 = some o)
    (hmembers : (adapter.ListOrganizationMembers orgName).2 = none)
    (hchecks : adapter.ListSupportedChecksIDs.2 = none) :
    FetchClientData env accessToken repoUrl scmPlatform branch
      = ⟨calls ++ [Call.GetAuthorizedUser, Call.GetRepository orgName repoName branch,
            Call.GetBranchProtection orgName r
              (utils.GetBranchName (utils.GetValue r.DefaultBranch) branch),
            Call.GetPipelines orgName repoName
              (utils.GetBranchName (utils.GetValue r.DefaultBranch) branch),
            Call.GetOrganization orgName, Call.GetRegistry (some o),
            Call.ListOrganizationMembers orgName, Call.ListSupportedChecksIDs],
          .ret ⟨some ⟨adapter.GetAuthorizedUser.1,
              some ⟨o.Login, (adapter.ListOrganizationMembers orgName).1⟩, some r,
              (adapter.GetBranchProtection orgName r
                (utils.GetBranchName (utils.GetValue r.DefaultBranch) branch)).1,
              (adapter.GetPipelines orgName repoName
                (utils.GetBranchName (utils.GetValue r.DefaultBranch) branch)).1,
              (adapter.GetRegistry (some o)).1⟩,
            adapter.ListSupportedChecksIDs.1, none⟩⟩ := by
  rw [FetchClientData_eq_fetchWith env accessToken repoUrl scmPlatform branch host orgName
    repoName adapter calls hurl hadapter, fetchWith_full_path adapter orgName repoName
    branch r owner o hrepo howner htype horg hmembers, hchecks]

/-- C17, at a concrete input: every call of `sampleAdapter` succeeds. -/
theorem FetchClientData_full_path_witness :
    FetchClientData (sampleEnv sampleAdapter) "tok".toList
        "https://github.com/org/repo".toList [] []
      = ⟨[Call.Init GithubPlatform "tok".toList "github.com".toList, Call.GetAuthorizedUser,
            Call.GetRepository "org".toList "repo".toList [],
            Call.GetBranchProtection "org".toList sampleRepo "main".toList,
            Call.GetPipelines "org".toList "repo".toList "main".toList,
            Call.GetOrganization "org".toList, Call.GetRegistry (some sampleOrg),
            Call.ListOrganizationMembers "org".toList, Call.ListSupportedChecksIDs],
          .ret ⟨some ⟨some ⟨some "me".toList, some "User".toList⟩,
            some ⟨some "org".toList, [⟨some "member".toList, some "User".toList⟩]⟩,
            some sampleRepo, some ⟨1⟩, [⟨2⟩], some ⟨3⟩⟩, ["1.1.3".toList], none⟩⟩ :=
  FetchClientData_full_path (sampleEnv sampleAdapter) "tok".toList
    "https://github.com/org/repo".toList [] [] "github.com".toList "org".toList
    "repo".toList sampleAdapter [Call.Init GithubPlatform "tok".toList "github.com".toList]
    sampleRepo ⟨some "org".toList, some "Organization".toList⟩ sampleOrg
    (by decide) rfl rfl rfl rfl rfl rfl rfl

/-- C18: `getRepoInfo` is not total.  For `https://github.com/org/repo/` the last path
element is empty, `strings.Split(u.Path, "")` starts with the one-byte piece `/`, and
the slice `namespace[1:0]` of line 107 panics; for `https://github.com/a/b/a` the
namespace cut at the first `a` is `/` again, with the same panic. -/
theorem getRepoInfo_panics :
    getRepoInfo exampleParse "https://github.com/org/repo/".toList
        = .panic "slice bounds out of range".toList
    ∧ getRepoInfo exampleParse "https://github.com/a/b/a".toList
        = .panic "slice bounds out of range".toList := by
  decide

/-- C19: `FetchClientData` does dereference absent values.  A repository without an owner
and a repository whose owner has no type both make line 65 panic, right after
`GetPipelines`; an absent organization with the member list served makes line 73 panic,
right after `ListOrganizationMembers`.  None of the three runs returns a snapshot. -/
theorem FetchClientData_nil_dereferences :
    FetchClientData (sampleEnv noOwnerAdapter) "tok".toList
        "https://github.com/org/repo".toList [] []
      = ⟨[Call.Init GithubPlatform "tok".toList "github.com".toList, Call.GetAuthorizedUser,
            Call.GetRepository "org".toList "repo".toList [],
            Call.GetBranchProtection "org".toList ownerlessRepo "main".toList,
            Call.GetPipelines "org".toList "repo".toList "main".toList],
          .panic nilDereference⟩
    ∧ FetchClientData (sampleEnv untypedOwnerAdapter) "tok".toList
        "https://github.com/org/repo".toList [] []
      = ⟨[Call.Init GithubPlatform "tok".toList "github.com".toList, Call.GetAuthorizedUser,
            Call.GetRepository "org".toList "repo".toList [],
            Call.GetBranchProtection "org".toList untypedOwnerRepo "main".toList,
            Call.GetPipelines "org".toList "repo".toList "main".toList],
          .panic nilDereference⟩
    ∧ (orgFailsAdapter.GetOrganization "org".toList).1 = none
    ∧ (orgFailsAdapter.ListOrganizationMembers "org".toList).2 = none
    ∧ (FetchClientData (sampleEnv orgFailsAdapter) "tok".toList
        "https://github.com/org/repo".toList [] []).outcome = .panic nilDereference := by
  decide

/-! ## The claim on the enumeration of the check IDs -/

/-- The calls `getClientAdapter` makes are no fetch calls. -/
theorem getClientAdapter_calls_method (env : Env) (scmPlatform accessToken host : GoString)
    (c : Call) (hc : c ∈ (getClientAdapter env scmPlatform accessToken host).calls) :
    c.method = none := by
  have h := getClientAdapter_calls_no_fetch env scmPlatform accessToken host
  rw [List.filterMap_eq_nil_iff] at h
  exact h c hc

/-- The snapshot of a fetch sequence that gets to `ListSupportedChecksIDs`: the run
returns, with the check IDs and the error of that call, and each field of the snapshot
holds what the calls of the run collected for it. -/
theorem fetchWith_checks_called (adapter : ClientAdapter) (orgName repoName branch : GoString)
    (hcalled : Call.ListSupportedChecksIDs ∈ (fetchWith adapter orgName repoName branch).calls) :
    ∃ d, (fetchWith adapter orgName repoName branch).outcome
        = .ret ⟨some d, adapter.ListSupportedChecksIDs.1, adapter.ListSupportedChecksIDs.2⟩
      ∧ d.AuthorizedUser = adapter.GetAuthorizedUser.1
      ∧ d.Repository = (adapter.GetRepository orgName repoName branch).1
      ∧ (∀ o r b, Call.GetBranchProtection o r b
            ∈ (fetchWith adapter orgName repoName branch).calls →
          d.BranchProtections = (adapter.GetBranchProtection o r b).1)
      ∧ ((∀ o r b, Call.GetBranchProtection o r b
            ∉ (fetchWith adapter orgName repoName branch).calls) →
          d.BranchProtections = none)
      ∧ (∀ o r b, Call.GetPipelines o r b ∈ (fetchWith adapter orgName repoName branch).calls →
          d.Pipelines = (adapter.GetPipelines o r b).1)
      ∧ ((∀ o r b, Call.GetPipelines o r b
            ∉ (fetchWith adapter orgName repoName branch).calls) →
          d.Pipelines = [])
      ∧ (∀ g, Call.GetRegistry g ∈ (fetchWith adapter orgName repoName branch).calls →
          d.Registry = (adapter.GetRegistry g).1)
      ∧ ((∀ g, Call.GetRegistry g ∉ (fetchWith adapter orgName repoName branch).calls) →
          d.Registry = none)
      ∧ (∀ o, Call.GetOrganization o ∈ (fetchWith adapter orgName repoName branch).calls →
          d.Organization
            = match (adapter.ListOrganizationMembers o).2 with
              | none => (adapter.GetOrganization o).1.map
                  (fun g => { g with Members := (adapter.ListOrganizationMembers o).1 })
              | some _ => (adapter.GetOrganization o).1)
      ∧ ((∀ o, Call.GetOrganization o ∉ (fetchWith adapter orgName repoName branch).calls) →
          d.Organization = none) := by
  unfold fetchWith at hcalled ⊢
  simp only at hcalled ⊢
  cases hrepo : (adapter.GetRepository orgName repoName branch).1 with
  | none => simp [hrepo]
  | some r =>
    simp only [hrepo] at hcalled ⊢
    cases howner : r.Owner with
    | none => simp [howner] at hcalled
    | some owner =>
      simp only [howner] at hcalled ⊢
      cases htype : owner.Type_ with
      | none => simp [htype] at hcalled
      | some ownerType =>
        simp only [htype] at hcalled ⊢
        by_cases hkind : ownerType = "Organization".toList
        · simp only [hkind, if_true] at hcalled ⊢
          cases hmembers : (adapter.ListOrganizationMembers orgName).2 with
          | none =>
            simp only [hmembers] at hcalled ⊢
            cases horg : (adapter.GetOrganization orgName).1 with
            | none => simp [horg] at hcalled
            | some g =>
              simp only [horg]
              refine ⟨_, rfl, rfl, rfl, ?_, ?_, ?_, ?_, ?_, ?_, ?_, ?_⟩
              · intro o r1 b h
                simp at h
                obtain ⟨rfl, rfl, rfl⟩ := h
                rfl
              · intro h
                exact absurd (by simp) (h orgName r
                  (utils.GetBranchName (utils.GetValue r.DefaultBranch) branch))
              · intro o r1 b h
                simp at h
                obtain ⟨rfl, rfl, rfl⟩ := h
                rfl
              · intro h
                exact absurd (by simp) (h orgName repoName
                  (utils.GetBranchName (utils.GetValue r.DefaultBranch) branch))
              · intro g1 h
                simp at h
                subst h
                rfl
              · intro h
                exact absurd (by simp) (h (some g))
              · intro o h
                simp at h
                subst h
                simp [hmembers, horg]
              · intro h
                exact absurd (by simp) (h orgName)
          | some e =>
            simp only [hmembers]
            refine ⟨_, rfl, rfl, rfl, ?_, ?_, ?_, ?_, ?_, ?_, ?_, ?_⟩
            · intro o r1 b h
              simp at h
              obtain ⟨rfl, rfl, rfl⟩ := h
              rfl
            · intro h
              exact absurd (by simp) (h orgName r
                (utils.GetBranchName (utils.GetValue r.DefaultBranch) branch))
            · intro o r1 b h
              simp at h
              obtain ⟨rfl, rfl, rfl⟩ := h
              rfl
            · intro h
              exact absurd (by simp) (h orgName repoName
                (utils.GetBranchName (utils.GetValue r.DefaultBranch) branch))
            · intro g1 h
              simp at h
              subst h
              rfl
            · intro h
              exact absurd (by simp) (h (adapter.GetOrganization orgName).1)
            · intro o h
              simp at h
              subst h
              simp [hmembers]
            · intro h
              exact absurd (by simp) (h orgName)
        · simp only [hkind, if_false]
          refine ⟨_, rfl, rfl, rfl, ?_, ?_, ?_, ?_, ?_, ?_, ?_, ?_⟩
          · intro o r1 b h
            simp at h
            obtain ⟨rfl, rfl, rfl⟩ := h
            rfl
          · intro h
            exact absurd (by simp) (h orgName r
              (utils.GetBranchName (utils.GetValue r.DefaultBranch) branch))
          · intro o r1 b h
            simp at h
            obtain ⟨rfl, rfl, rfl⟩ := h
            rfl
          · intro h
            exact absurd (by simp) (h orgName repoName
              (utils.GetBranchName (utils.GetValue r.DefaultBranch) branch))
          · intro g1 h
            simp at h
          · intro _
            rfl
          · intro o h
            simp at h
          · intro _
            rfl

/-- C6: when the URL resolves and the adapter is constructed, and `ListSupportedChecksIDs`
fails, that is, the run calls it and it returns the error `e`, `FetchClientData` returns
that same error `e` together with a non-nil snapshot `d` whose fields hold exactly what
the earlier steps of the run collected: the authorized user and the repository as
`GetAuthorizedUser` and `GetRepository` returned them; branch protection, pipelines and
registry as the call of the run for each returned it, and unset when the run made no
such call; the organization as `GetOrganization` returned it, with the members that a
successful `ListOrganizationMembers` returned attached, and unset when the run did not
call `GetOrganization`. -/
theorem FetchClientData_checks_error_surfaced (env : Env)
    (accessToken repoUrl scmPlatform branch host orgName repoName : GoString)
    (adapter : ClientAdapter) (calls : List Call) (e : GoError)
    (hurl : getRepoInfo env.Parse repoUrl = .ret ⟨host, orgName, repoName, none⟩)
    (hadapter : getClientAdapter env (selectPlatform host scmPlatform) accessToken host
      = ⟨some adapter, none, calls⟩)
    (hcalled : Call.ListSupportedChecksIDs
      ∈ (FetchClientData env accessToken repoUrl scmPlatform branch).calls)
    (hfails : adapter.ListSupportedChecksIDs.2 = some e) :
    ∃ d, (FetchClientData env accessToken repoUrl scmPlatform branch).outcome
        = .ret ⟨some d, adapter.ListSupportedChecksIDs.1, some e⟩
      ∧ d.AuthorizedUser = adapter.GetAuthorizedUser.1
      ∧ d.Repository = (adapter.GetRepository orgName repoName branch).1
      ∧ (∀ o r b, Call.GetBranchProtection o r b
            ∈ (FetchClientData env accessToken repoUrl scmPlatform branch).calls →
          d.BranchProtections = (adapter.GetBranchProtection o r b).1)
      ∧ ((∀ o r b, Call.GetBranchProtection o r b
            ∉ (FetchClientData env accessToken repoUrl scmPlatform branch).calls) →
          d.BranchProtections = none)
      ∧ (∀ o r b, Call.GetPipelines o r b
            ∈ (FetchClientData env accessToken repoUrl scmPlatform branch).calls →
          d.Pipelines = (adapter.GetPipelines o r b).1)
      ∧ ((∀ o r b, Call.GetPipelines o r b
            ∉ (FetchClientData env accessToken repoUrl scmPlatform branch).calls) →
          d.Pipelines = [])
      ∧ (∀ g, Call.GetRegistry g
            ∈ (FetchClientData env accessToken repoUrl scmPlatform branch).calls →
          d.Registry = (adapter.GetRegistry g).1)
      ∧ ((∀ g, Call.GetRegistry g
            ∉ (FetchClientData env accessToken repoUrl scmPlatform branch).calls) →
          d.Registry = none)
      ∧ (∀ o, Call.GetOrganization o
            ∈ (FetchClientData env accessToken repoUrl scmPlatform branch).calls →
          d.Organization
            = match (adapter.ListOrganizationMembers o).2 with
              | none => (adapter.GetOrganization o).1.map
                  (fun g => { g with Members := (adapter.ListOrganizationMembers o).1 })
              | some _ => (adapter.GetOrganization o).1)
      ∧ ((∀ o, Call.GetOrganization o
            ∉ (FetchClientData env accessToken repoUrl scmPlatform branch).calls) →
          d.Organization = none) := by
  have hinit : ∀ c ∈ calls, c.method = none := by
    intro c hc
    have h := getClientAdapter_calls_method env (selectPlatform host scmPlatform)
      accessToken host c
    rw [hadapter] at h
    exact h hc
  have hrun := FetchClientData_eq_fetchWith env accessToken repoUrl scmPlatform branch host
    orgName repoName adapter calls hurl hadapter
  have hmem : ∀ c, c.method ≠ none →
      (c ∈ (FetchClientData env accessToken repoUrl scmPlatform branch).calls
        ↔ c ∈ (fetchWith adapter orgName repoName branch).calls) := by
    intro c hc
    rw [hrun]
    simp only [List.mem_append]
    exact ⟨fun h => h.resolve_left (fun hin => hc (hinit c hin)), Or.inr⟩
  have hchecks : Call.ListSupportedChecksIDs ∈ (fetchWith adapter orgName repoName branch).calls :=
    (hmem _ (by simp [Call.method])).1 hcalled
  obtain ⟨d, hout, h1, h2, h3, h4, h5, h6, h7, h8, h9, h10⟩ :=
    fetchWith_checks_called adapter orgName repoName branch hchecks
  refine ⟨d, ?_, h1, h2, ?_, ?_, ?_, ?_, ?_, ?_, ?_, ?_⟩
  · rw [hrun]
    simp only [hout, hfails]
  · exact fun o r b h => h3 o r b ((hmem _ (by simp [Call.method])).1 h)
  · exact fun h => h4 (fun o r b hin => h o r b ((hmem _ (by simp [Call.method])).2 hin))
  · exact fun o r b h => h5 o r b ((hmem _ (by simp [Call.method])).1 h)
  · exact fun h => h6 (fun o r b hin => h o r b ((hmem _ (by simp [Call.method])).2 hin))
  · exact fun g h => h7 g ((hmem _ (by simp [Call.method])).1 h)
  · exact fun h => h8 (fun g hin => h g ((hmem _ (by simp [Call.method])).2 hin))
  · exact fun o h => h9 o ((hmem _ (by simp [Call.method])).1 h)
  · exact fun h => h10 (fun o hin => h o ((hmem _ (by simp [Call.method])).2 hin))

/-- C6, at a concrete input: every fetch succeeds on an organization's repository and
`ListSupportedChecksIDs` fails; the run returns its error next to the full snapshot. -/
theorem FetchClientData_checks_error_surfaced_witness :
    Call.ListSupportedChecksIDs
      ∈ (FetchClientData (sampleEnv checksFailAdapter) "tok".toList
          "https://github.com/org/repo".toList [] []).calls
    ∧ checksFailAdapter.ListSupportedChecksIDs.2 = some ⟨"checks unavailable".toList⟩
    ∧ ∃ d, (FetchClientData (sampleEnv checksFailAdapter) "tok".toList
          "https://github.com/org/repo".toList [] []).outcome
        = .ret ⟨some d, [], some ⟨"checks unavailable".toList⟩⟩
      ∧ d.AuthorizedUser = some ⟨some "me".toList, some "User".toList⟩
      ∧ d.Repository = some sampleRepo
      ∧ d.BranchProtections = some ⟨1⟩
      ∧ d.Pipelines = [⟨2⟩]
      ∧ d.Registry = some ⟨3⟩
      ∧ d.Organization
        = some ⟨some "org".toList, [⟨some "member".toList, some "User".toList⟩]⟩ :=
  ⟨by decide, rfl,
    (FetchClientData_checks_error_surfaced (sampleEnv checksFailAdapter) "tok".toList
      "https://github.com/org/repo".toList [] [] "github.com".toList "org".toList
      "repo".toList checksFailAdapter
      [Call.Init GithubPlatform "tok".toList "github.com".toList]
      ⟨"checks unavailable".toList⟩ (by decide) rfl (by decide) rfl).imp
      (fun _ h => ⟨h.1, h.2.1, h.2.2.1,
        h.2.2.2.1 "org".toList sampleRepo "main".toList (by decide),
        h.2.2.2.2.2.1 "org".toList "repo".toList "main".toList (by decide),
        h.2.2.2.2.2.2.2.1 (some sampleOrg) (by decide),
        h.2.2.2.2.2.2.2.2.2.1 "org".toList (by decide)⟩)⟩

end ChainBench
